import Mathlib

/-
Verification development for the easydns DNS responder (easydns.go).

The core under verification is the query resolution engine:
  - requestFromUpsreamServers (easydns.go lines 101-111): forward a query to
    an ordered list of upstream servers, returning the first response whose
    exchange completed without a transport error.
  - handleDNSRequest (easydns.go lines 114-155): per-question handling of an
    incoming query message: strip the trailing root separator, look the name
    up in the record store, synthesize a local resource record per record
    type, or forward the query upstream on a miss when forwarding is enabled.

External collaborators (the miekg/dns protocol library, the network) are
modelled by explicit parameters:
  - valueOk t v : Bool models whether dns.NewRR accepts the rdata text v for
    record type t (MalformedRecordData when false);
  - exchange r s : Option Msg models the transport outcome of
    dns.Client.Exchange(r, s): some resp means the exchange completed
    without a transport error (the response may itself carry a DNS-level
    error code in its rcode field), none means a transport failure.
-/

namespace EasyDNS

/-- One configured record descriptor (struct Record in easydns.go):
type, value, priority (meaningful for MX and SRV), ttl. -/
structure Record where
  type : String
  value : String
  priority : Int := 0
  ttl : Nat := 0
  deriving DecidableEq, Repr

/-- The record store (type Records = map[string]Record in easydns.go),
modelled as an association list with exact string keys; Go map indexing is
exact byte-for-byte (hence case-sensitive) key equality. -/
abbrev Records := List (String × Record)

/-- Forwarding configuration (struct ForwardingConfig in easydns.go). -/
structure ForwardingConfig where
  enabled : Bool
  servers : List String
  deriving DecidableEq, Repr

/-- Structured rdata of a synthesized resource record, one constructor per
field layout that handleDNSRequest produces through dns.NewRR. -/
inductive RData where
  /-- Single-token rdata for A, AAAA, CNAME, TXT, NS, PTR. -/
  | simple (v : String)
  /-- MX rdata: preference and exchange host. -/
  | mx (preference : Int) (exchange : String)
  /-- SRV rdata: priority, weight, port, target. -/
  | srv (priority weight port : Int) (target : String)
  deriving DecidableEq, Repr

/-- A protocol-level resource record (dns.RR): owner name, type, TTL and
rdata. The class field is constantly IN and omitted. -/
structure RR where
  name : String
  rtype : String
  ttl : Nat
  rdata : RData
  deriving DecidableEq, Repr

/-- One entry of the question section (dns.Question): the handler only
reads the Name field; Qtype is carried but never consulted. -/
structure Question where
  name : String
  qtype : Nat := 0
  deriving DecidableEq, Repr

/-- A DNS message (dns.Msg), restricted to the parts the core reads or
writes: transaction id, response flag, DNS-level status code, question
section and answer section. -/
structure Msg where
  id : Nat := 0
  response : Bool := false
  rcode : Nat := 0
  question : List Question := []
  answer : List RR := []
  deriving DecidableEq, Repr

/-- Go strings.HasSuffix: true when suffix is a trailing segment of s. -/
def hasSuffix (s suffix : String) : Bool :=
  decide (suffix.data.length ≤ s.data.length) &&
    decide (s.data.drop (s.data.length - suffix.data.length) = suffix.data)

/-- Go strings.TrimSuffix: remove one occurrence of a trailing suffix. -/
def trimSuffix (s suffix : String) : String :=
  if hasSuffix s suffix then
    String.mk (s.data.take (s.data.length - suffix.data.length))
  else s

/-- Record store lookup as performed in handleDNSRequest lines 119-120:
strip the trailing root separator from the question name, then index the
record map with the result (exact, case-sensitive key equality). -/
def storeLookup (records : Records) (queryName : String) : Option Record :=
  List.lookup (trimSuffix queryName ".") records

/-- The record types handled by the first switch case of handleDNSRequest
(line 124), whose rdata is the descriptor value verbatim. -/
def simpleKinds : List String := ["A", "AAAA", "CNAME", "TXT", "NS", "PTR"]

/-- Synthesis errors of section 4.2 of the specification. -/
inductive SynthesisError where
  | unsupportedRecordType
  | malformedRecordData
  deriving DecidableEq, Repr

/-- Forwarding error of section 4.3 of the specification. -/
inductive ForwardingError where
  | allUpstreamsFailed
  deriving DecidableEq, Repr

/-- Record synthesis: the switch statement of handleDNSRequest lines
123-133 composed with dns.NewRR on the formatted presentation string.
For the simple kinds the format is "name type value", for MX
"name MX priority value", for SRV "name SRV priority 0 0 value"; the
library parses these into a record whose owner name is the (fully
qualified) question name, with its default TTL of 3600 (overridden by the
caller). valueOk models whether dns.NewRR accepts the rdata text. Any
type outside the switch hits the default case (UnsupportedRecordType). -/
def synthesize (valueOk : String → String → Bool) (questionName : String)
    (record : Record) : Except SynthesisError RR :=
  if record.type ∈ simpleKinds then
    if valueOk record.type record.value then
      Except.ok { name := questionName, rtype := record.type, ttl := 3600,
                  rdata := RData.simple record.value }
    else Except.error SynthesisError.malformedRecordData
  else if record.type = "MX" then
    if valueOk record.type record.value then
      Except.ok { name := questionName, rtype := "MX", ttl := 3600,
                  rdata := RData.mx record.priority record.value }
    else Except.error SynthesisError.malformedRecordData
  else if record.type = "SRV" then
    if valueOk record.type record.value then
      Except.ok { name := questionName, rtype := "SRV", ttl := 3600,
                  rdata := RData.srv record.priority 0 0 record.value }
    else Except.error SynthesisError.malformedRecordData
  else Except.error SynthesisError.unsupportedRecordType

/-- requestFromUpsreamServers (easydns.go lines 101-111): iterate the
upstream servers in order, returning the first response whose exchange
completed without a transport error; if every server fails, return the
AllUpstreamsFailed error. -/
def requestFromUpsreamServers (exchange : Msg → String → Option Msg)
    (r : Msg) : List String → Except ForwardingError Msg
  | [] => Except.error ForwardingError.allUpstreamsFailed
  | server :: rest =>
    match exchange r server with
    | some resp => Except.ok resp
    | none => requestFromUpsreamServers exchange r rest

/-- Ghost instrumentation of requestFromUpsreamServers: the list of
servers actually contacted during the single pass (every failing server
up to and including the first succeeding one). -/
def forwardAttempts (exchange : Msg → String → Option Msg) (r : Msg) :
    List String → List String
  | [] => []
  | server :: rest =>
    match exchange r server with
    | some _ => [server]
    | none => server :: forwardAttempts exchange r rest

/-- dns.Msg.SetReply (miekg/dns): copy the transaction id, mark the
message as a response with status code success, and copy the first
question entry when one exists. -/
def setReply (request : Msg) : Msg :=
  { id := request.id, response := true, rcode := 0,
    question := request.question.take 1, answer := [] }

/-- Handling of one question of the query, handleDNSRequest lines 118-150.
Returns the list of answer records appended for this question, paired with
the ghost list of query messages forwarded upstream while handling it
(one entry per call of requestFromUpsreamServers; the forwarded message is
always the full original query r). -/
def processQuestion (valueOk : String → String → Bool)
    (exchange : Msg → String → Option Msg) (records : Records)
    (forwarding : ForwardingConfig) (r : Msg) (q : Question) :
    List RR × List Msg :=
  match storeLookup records q.name with
  | some record =>
    match synthesize valueOk q.name record with
    | Except.ok rr => ([{ rr with ttl := record.ttl }], [])
    | Except.error _ => ([], [])
  | none =>
    if forwarding.enabled then
      match requestFromUpsreamServers exchange r forwarding.servers with
      | Except.ok upstreamResponse => (upstreamResponse.answer, [r])
      | Except.error _ => ([], [r])
    else ([], [])

/-- The answer records one question contributes to the reply. -/
def questionAnswers (valueOk : String → String → Bool)
    (exchange : Msg → String → Option Msg) (records : Records)
    (forwarding : ForwardingConfig) (r : Msg) (q : Question) : List RR :=
  (processQuestion valueOk exchange records forwarding r q).1

/-- handleDNSRequest (easydns.go lines 114-152) up to the WriteMsg call:
build the reply with SetReply, loop over the question section appending
per-question results in order, and return the reply message, paired with
the ghost list of all query messages forwarded upstream. -/
def handleDNSRequest (valueOk : String → String → Bool)
    (exchange : Msg → String → Option Msg) (records : Records)
    (forwarding : ForwardingConfig) (r : Msg) : Msg × List Msg :=
  let msg := setReply r
  let out := r.question.foldl
    (fun acc q =>
      let res := processQuestion valueOk exchange records forwarding r q
      (acc.1 ++ res.1, acc.2 ++ res.2))
    ([], [])
  ({ msg with answer := out.1 }, out.2)

/-- The complete handler body including the final log line
(easydns.go line 153), which reads r.Question[0].Name unconditionally
after the reply has been written. Returns none when that index access is
out of bounds (the Go handler panics there), otherwise the reply together
with the logged first question name. -/
def handlerRun (valueOk : String → String → Bool)
    (exchange : Msg → String → Option Msg) (records : Records)
    (forwarding : ForwardingConfig) (r : Msg) : Option (Msg × String) :=
  let reply := (handleDNSRequest valueOk exchange records forwarding r).1
  match r.question with
  | [] => none
  | q :: _ => some (reply, q.name)

/-! Helper lemmas shared by the claim theorems. -/

theorem lookup_eq_none_iff (key : String) :
    ∀ records : List (String × Record),
      List.lookup key records = none ↔ ∀ p ∈ records, p.1 ≠ key
  | [] => by simp
  | (k, v) :: rest => by
    by_cases h : key = k
    · subst h
      simp [List.lookup]
    · have hbeq : (key == k) = false := beq_false_of_ne h
      simp only [List.lookup, hbeq, List.mem_cons]
      rw [lookup_eq_none_iff key rest]
      constructor
      · intro hrest p hp
        rcases hp with hp | hp
        · subst hp
          exact fun hk => h hk.symm
        · exact hrest p hp
      · intro hall p hp
        exact hall p (Or.inr hp)

theorem lookup_eq_some_mem {key : String} {record : Record} :
    ∀ {records : List (String × Record)},
      List.lookup key records = some record → (key, record) ∈ records
  | [], h => by simp [List.lookup] at h
  | (k, v) :: rest, h => by
    by_cases hk : key = k
    · subst hk
      simp [List.lookup] at h
      simp [h]
    · have hbeq : (key == k) = false := beq_false_of_ne hk
      simp only [List.lookup, hbeq] at h
      exact List.mem_cons_of_mem _ (lookup_eq_some_mem h)

theorem foldl_collect (f : Question → List RR × List Msg) :
    ∀ (l : List Question) (acc : List RR × List Msg),
      l.foldl (fun acc q => (acc.1 ++ (f q).1, acc.2 ++ (f q).2)) acc =
        (acc.1 ++ (l.map (fun q => (f q).1)).flatten,
         acc.2 ++ (l.map (fun q => (f q).2)).flatten)
  | [], acc => by simp
  | q :: rest, acc => by
    simp only [List.foldl_cons, List.map_cons, List.flatten_cons,
      foldl_collect f rest]
    simp [List.append_assoc]

/-- Structure of the handler result: the reply carries the metadata set by
SetReply and the concatenation, in question order, of the per-question
answer lists; the ghost component concatenates the per-question forwarded
queries. -/
theorem handleDNSRequest_eq (valueOk : String → String → Bool)
    (exchange : Msg → String → Option Msg) (records : Records)
    (forwarding : ForwardingConfig) (r : Msg) :
    handleDNSRequest valueOk exchange records forwarding r =
      ({ id := r.id, response := true, rcode := 0,
         question := r.question.take 1,
         answer := (r.question.map
           (fun q => (processQuestion valueOk exchange records forwarding r q).1)).flatten },
       (r.question.map
         (fun q => (processQuestion valueOk exchange records forwarding r q).2)).flatten) := by
  show (let msg := setReply r
        let out := r.question.foldl
          (fun acc q =>
            let res := processQuestion valueOk exchange records forwarding r q
            (acc.1 ++ res.1, acc.2 ++ res.2))
          ([], [])
        ({ msg with answer := out.1 }, out.2)) = _
  simp only [foldl_collect (fun q => processQuestion valueOk exchange records forwarding r q)
    r.question ([], [])]
  simp [setReply]

/-- All record types handled by some non-default switch case of
handleDNSRequest. -/
def supportedKinds : List String := simpleKinds ++ ["MX", "SRV"]

theorem synthesize_simple (valueOk : String → String → Bool)
    (qname : String) (record : Record) (hkind : record.type ∈ simpleKinds)
    (hok : valueOk record.type record.value = true) :
    synthesize valueOk qname record =
      Except.ok { name := qname, rtype := record.type, ttl := 3600,
                  rdata := RData.simple record.value } := by
  unfold synthesize
  rw [if_pos hkind, hok]
  simp

theorem processQuestion_hit (valueOk : String → String → Bool)
    (exchange : Msg → String → Option Msg) (records : Records)
    (forwarding : ForwardingConfig) (r : Msg) (q : Question) (record : Record)
    (hfound : storeLookup records q.name = some record) :
    processQuestion valueOk exchange records forwarding r q =
      match synthesize valueOk q.name record with
      | Except.ok rr => ([{ rr with ttl := record.ttl }], [])
      | Except.error _ => ([], []) := by
  simp only [processQuestion, hfound]

theorem processQuestion_miss (valueOk : String → String → Bool)
    (exchange : Msg → String → Option Msg) (records : Records)
    (forwarding : ForwardingConfig) (r : Msg) (q : Question)
    (hmiss : storeLookup records q.name = none) :
    processQuestion valueOk exchange records forwarding r q =
      if forwarding.enabled then
        match requestFromUpsreamServers exchange r forwarding.servers with
        | Except.ok upstreamResponse => (upstreamResponse.answer, [r])
        | Except.error _ => ([], [r])
      else ([], []) := by
  simp only [processQuestion, hmiss]

/-- C7: Record Store lookup strips the trailing root separator from the
query name and matches the result by exact, case-sensitive string equality
against the configured keys: the lookup returns not found exactly when no
configured key equals the stripped name (so suffix, wildcard or
case-differing matches never hit), and every hit is a configured entry
whose key is exactly the stripped name. -/
theorem store_lookup_exact_match (records : Records) (queryName : String) :
    (storeLookup records queryName = none ↔
      ∀ p ∈ records, p.1 ≠ trimSuffix queryName ".")
    ∧ (∀ record, storeLookup records queryName = some record →
        (trimSuffix queryName ".", record) ∈ records) := by
  constructor
  · exact lookup_eq_none_iff (trimSuffix queryName ".") records
  · intro record h
    exact lookup_eq_some_mem h

/-- Witness for C7 at a concrete store: a query name differing from the
configured key only in letter case is not found, while the exactly equal
name (with the trailing root separator stripped) is. -/
theorem store_lookup_exact_match_witness :
    storeLookup [("test.com", { type := "A", value := "127.0.0.1", ttl := 600 })]
      "Test.com." = none :=
  (store_lookup_exact_match
    [("test.com", { type := "A", value := "127.0.0.1", ttl := 600 })]
    "Test.com.").1.mpr (by decide)

/-- C1: for a question whose name, after stripping the trailing root
separator, is a key of the Record Store with descriptor type among
A, AAAA, CNAME, TXT, NS, PTR and a well-formed value, resolution appends
exactly one answer record for that question, whose name is the question
name, whose type is the descriptor type and whose rdata is the descriptor
value; the reply answer section is the in-order concatenation of these
per-question contributions. -/
theorem resolve_simple_kind_one_answer (valueOk : String → String → Bool)
    (exchange : Msg → String → Option Msg) (records : Records)
    (forwarding : ForwardingConfig) (r : Msg) (q : Question) (record : Record)
    (hfound : storeLookup records q.name = some record)
    (hkind : record.type ∈ simpleKinds)
    (hok : valueOk record.type record.value = true) :
    questionAnswers valueOk exchange records forwarding r q =
      [{ name := q.name, rtype := record.type, ttl := record.ttl,
         rdata := RData.simple record.value }]
    ∧ (handleDNSRequest valueOk exchange records forwarding r).1.answer =
        (r.question.map (questionAnswers valueOk exchange records forwarding r)).flatten := by
  constructor
  · simp only [questionAnswers,
      processQuestion_hit valueOk exchange records forwarding r q record hfound,
      synthesize_simple valueOk q.name record hkind hok]
  · rw [handleDNSRequest_eq]
    exact rfl

/-- Witness for C1 on the default-configuration A record for test.com. -/
theorem resolve_simple_kind_one_answer_witness :
    questionAnswers (fun _ _ => true) (fun _ _ => none)
      [("test.com", { type := "A", value := "127.0.0.1", ttl := 600 })]
      { enabled := false, servers := [] } {} { name := "test.com." } =
      [{ name := "test.com.", rtype := "A", ttl := 600,
         rdata := RData.simple "127.0.0.1" }] :=
  (resolve_simple_kind_one_answer (fun _ _ => true) (fun _ _ => none)
    [("test.com", { type := "A", value := "127.0.0.1", ttl := 600 })]
    { enabled := false, servers := [] } {} { name := "test.com." }
    { type := "A", value := "127.0.0.1", ttl := 600 }
    (by decide) (by decide) rfl).1

theorem synthesize_mx (valueOk : String → String → Bool) (qname : String)
    (record : Record) (htype : record.type = "MX")
    (hok : valueOk record.type record.value = true) :
    synthesize valueOk qname record =
      Except.ok { name := qname, rtype := "MX", ttl := 3600,
                  rdata := RData.mx record.priority record.value } := by
  have hok' : valueOk "MX" record.value = true := htype ▸ hok
  unfold synthesize
  rw [htype, hok']
  simp [simpleKinds]

theorem synthesize_srv (valueOk : String → String → Bool) (qname : String)
    (record : Record) (htype : record.type = "SRV")
    (hok : valueOk record.type record.value = true) :
    synthesize valueOk qname record =
      Except.ok { name := qname, rtype := "SRV", ttl := 3600,
                  rdata := RData.srv record.priority 0 0 record.value } := by
  have hok' : valueOk "SRV" record.value = true := htype ▸ hok
  unfold synthesize
  rw [htype, hok']
  simp [simpleKinds]

theorem synthesize_unsupported (valueOk : String → String → Bool)
    (qname : String) (record : Record)
    (hkind : record.type ∉ supportedKinds) :
    synthesize valueOk qname record =
      Except.error SynthesisError.unsupportedRecordType := by
  simp only [supportedKinds, List.mem_append, List.mem_cons,
    List.not_mem_nil, or_false, not_or] at hkind
  obtain ⟨h1, h2, h3⟩ := hkind
  unfold synthesize
  rw [if_neg h1, if_neg h2, if_neg h3]

/-- C3: for a store hit with descriptor type MX, the synthesized answer
has the question name as owner, the descriptor priority as preference and
the descriptor value as exchange; for type SRV it has the descriptor
priority, weight 0, port 0 and the descriptor value as target; and every
answer synthesized from a store hit carries the descriptor ttl in its TTL
field. -/
theorem resolve_mx_srv_fields (valueOk : String → String → Bool)
    (exchange : Msg → String → Option Msg) (records : Records)
    (forwarding : ForwardingConfig) (r : Msg) (q : Question) (record : Record)
    (hfound : storeLookup records q.name = some record)
    (hok : valueOk record.type record.value = true) :
    (record.type = "MX" →
      questionAnswers valueOk exchange records forwarding r q =
        [{ name := q.name, rtype := "MX", ttl := record.ttl,
           rdata := RData.mx record.priority record.value }])
    ∧ (record.type = "SRV" →
      questionAnswers valueOk exchange records forwarding r q =
        [{ name := q.name, rtype := "SRV", ttl := record.ttl,
           rdata := RData.srv record.priority 0 0 record.value }])
    ∧ (∀ rr ∈ questionAnswers valueOk exchange records forwarding r q,
        rr.ttl = record.ttl) := by
  refine ⟨?_, ?_, ?_⟩
  · intro ht
    simp only [questionAnswers,
      processQuestion_hit valueOk exchange records forwarding r q record hfound,
      synthesize_mx valueOk q.name record ht hok]
  · intro ht
    simp only [questionAnswers,
      processQuestion_hit valueOk exchange records forwarding r q record hfound,
      synthesize_srv valueOk q.name record ht hok]
  · intro rr hrr
    simp only [questionAnswers,
      processQuestion_hit valueOk exchange records forwarding r q record hfound] at hrr
    cases hsyn : synthesize valueOk q.name record with
    | ok rr0 =>
      rw [hsyn] at hrr
      simp only [List.mem_singleton] at hrr
      rw [hrr]
    | error e =>
      rw [hsyn] at hrr
      simp at hrr

/-- Witness for C3 on the default-configuration MX record for
mail.test.com (preference 10, ttl 60). -/
theorem resolve_mx_srv_fields_witness :
    questionAnswers (fun _ _ => true) (fun _ _ => none)
      [("mail.test.com",
        { type := "MX", value := "mail.somehost.com", priority := 10, ttl := 60 })]
      { enabled := false, servers := [] } {} { name := "mail.test.com." } =
      [{ name := "mail.test.com.", rtype := "MX", ttl := 60,
         rdata := RData.mx 10 "mail.somehost.com" }] :=
  (resolve_mx_srv_fields (fun _ _ => true) (fun _ _ => none)
    [("mail.test.com",
      { type := "MX", value := "mail.somehost.com", priority := 10, ttl := 60 })]
    { enabled := false, servers := [] } {} { name := "mail.test.com." }
    { type := "MX", value := "mail.somehost.com", priority := 10, ttl := 60 }
    (by decide) rfl).1 rfl

/-- C6: for a store hit whose descriptor type is outside the enumerated
set of eight supported kinds, synthesis fails with UnsupportedRecordType,
nothing is appended for that question, and the reply is still assembled
from the remaining questions in order with status code success. -/
theorem unsupported_kind_skipped (valueOk : String → String → Bool)
    (exchange : Msg → String → Option Msg) (records : Records)
    (forwarding : ForwardingConfig) (r : Msg) (q : Question) (record : Record)
    (hfound : storeLookup records q.name = some record)
    (hkind : record.type ∉ supportedKinds) :
    synthesize valueOk q.name record =
      Except.error SynthesisError.unsupportedRecordType
    ∧ questionAnswers valueOk exchange records forwarding r q = []
    ∧ (handleDNSRequest valueOk exchange records forwarding r).1.answer =
        (r.question.map (questionAnswers valueOk exchange records forwarding r)).flatten
    ∧ (handleDNSRequest valueOk exchange records forwarding r).1.rcode = 0 := by
  have hsyn := synthesize_unsupported valueOk q.name record hkind
  refine ⟨hsyn, ?_, ?_, ?_⟩
  · simp only [questionAnswers,
      processQuestion_hit valueOk exchange records forwarding r q record hfound, hsyn]
  · rw [handleDNSRequest_eq]
    exact rfl
  · rw [handleDNSRequest_eq]

/-- Witness for C6 at a store entry with the unsupported type SPF. -/
theorem unsupported_kind_skipped_witness :
    questionAnswers (fun _ _ => true) (fun _ _ => none)
      [("bad.test", { type := "SPF", value := "x" })]
      { enabled := false, servers := [] } {} { name := "bad.test." } = [] :=
  (unsupported_kind_skipped (fun _ _ => true) (fun _ _ => none)
    [("bad.test", { type := "SPF", value := "x" })]
    { enabled := false, servers := [] } {} { name := "bad.test." }
    { type := "SPF", value := "x" } (by decide) (by decide)).2.1

theorem forwarder_ok_iff (exchange : Msg → String → Option Msg) (r : Msg)
    (servers : List String) (resp : Msg) :
    requestFromUpsreamServers exchange r servers = Except.ok resp ↔
      ∃ failed succ rest, servers = failed ++ succ :: rest ∧
        (∀ s ∈ failed, exchange r s = none) ∧ exchange r succ = some resp := by
  induction servers with
  | nil =>
    constructor
    · intro h
      simp [requestFromUpsreamServers] at h
    · rintro ⟨failed, succ, rest, hdec, -, -⟩
      exact absurd hdec (by simp)
  | cons server rest0 ih =>
    constructor
    · intro h
      unfold requestFromUpsreamServers at h
      cases hx : exchange r server with
      | some resp0 =>
        rw [hx] at h
        simp only [Except.ok.injEq] at h
        exact ⟨[], server, rest0, rfl, by simp, by rw [hx, h]⟩
      | none =>
        rw [hx] at h
        obtain ⟨failed, succ, rest, hdec, hfail, hsucc⟩ := ih.mp h
        refine ⟨server :: failed, succ, rest, by rw [hdec]; rfl, ?_, hsucc⟩
        intro s hs
        rcases List.mem_cons.mp hs with hs | hs
        · rw [hs]; exact hx
        · exact hfail s hs
    · rintro ⟨failed, succ, rest, hdec, hfail, hsucc⟩
      cases failed with
      | nil =>
        simp only [List.nil_append, List.cons.injEq] at hdec
        obtain ⟨h1, h2⟩ := hdec
        unfold requestFromUpsreamServers
        rw [h1, hsucc]
      | cons f fs =>
        simp only [List.cons_append, List.cons.injEq] at hdec
        obtain ⟨h1, h2⟩ := hdec
        have hf : exchange r server = none := by
          rw [h1]; exact hfail f (List.mem_cons_self f fs)
        unfold requestFromUpsreamServers
        rw [hf]
        exact ih.mpr ⟨fs, succ, rest, h2,
          fun s hs => hfail s (List.mem_cons_of_mem f hs), hsucc⟩

theorem forwarder_error_iff (exchange : Msg → String → Option Msg) (r : Msg)
    (servers : List String) :
    requestFromUpsreamServers exchange r servers =
        Except.error ForwardingError.allUpstreamsFailed ↔
      ∀ s ∈ servers, exchange r s = none := by
  induction servers with
  | nil => simp [requestFromUpsreamServers]
  | cons server rest ih =>
    unfold requestFromUpsreamServers
    cases hx : exchange r server with
    | some resp0 => simp [hx]
    | none => simp [hx, ih]

theorem forwardAttempts_take (exchange : Msg → String → Option Msg) (r : Msg)
    (servers : List String) :
    ∃ k, forwardAttempts exchange r servers = servers.take k := by
  induction servers with
  | nil => exact ⟨0, rfl⟩
  | cons server rest ih =>
    unfold forwardAttempts
    cases hx : exchange r server with
    | some resp0 => exact ⟨1, by simp⟩
    | none =>
      obtain ⟨k, hk⟩ := ih
      exact ⟨k + 1, by simp [hk]⟩

/-- C2: the forwarder iterates the upstream server list in order and
returns Except.ok exactly on the response of the first server whose
exchange completes without a transport error (whatever status code that
response carries); it returns AllUpstreamsFailed exactly when every server
in the list fails at the transport level; and the servers it contacts form
an initial segment of the list, a single pass with no retries. -/
theorem forwarder_first_success (exchange : Msg → String → Option Msg)
    (r : Msg) (servers : List String) :
    (∀ resp, requestFromUpsreamServers exchange r servers = Except.ok resp ↔
      ∃ failed succ rest, servers = failed ++ succ :: rest ∧
        (∀ s ∈ failed, exchange r s = none) ∧ exchange r succ = some resp)
    ∧ (requestFromUpsreamServers exchange r servers =
        Except.error ForwardingError.allUpstreamsFailed ↔
      ∀ s ∈ servers, exchange r s = none)
    ∧ (∃ k, forwardAttempts exchange r servers = servers.take k) :=
  ⟨fun resp => forwarder_ok_iff exchange r servers resp,
   forwarder_error_iff exchange r servers,
   forwardAttempts_take exchange r servers⟩

/-- Witness for C2 on the two-server scenario of the specification:
server s1 fails at the transport level, s2 succeeds with a response whose
status code is NXDOMAIN (rcode 3), and the forwarder returns that
response. -/
theorem forwarder_first_success_witness :
    requestFromUpsreamServers
      (fun _ s => if s = "s2" then some { id := 7, rcode := 3 } else none)
      {} ["s1", "s2"] = Except.ok { id := 7, rcode := 3 } :=
  ((forwarder_first_success
    (fun _ s => if s = "s2" then some { id := 7, rcode := 3 } else none)
    {} ["s1", "s2"]).1 { id := 7, rcode := 3 }).mpr
    ⟨["s1"], "s2", [], rfl, by decide, by decide⟩

/-- C4: the three error cases are non-fatal to the overall response: the
reply always carries status code success (never SERVFAIL) and the response
flag, its answer section is the in-order concatenation of the per-question
contributions, a question whose synthesis fails (UnsupportedRecordType or
MalformedRecordData) contributes nothing, and a question missing from the
store whose forwarding pass fails with AllUpstreamsFailed contributes
nothing, leaving all other questions unaffected. -/
theorem errors_nonfatal (valueOk : String → String → Bool)
    (exchange : Msg → String → Option Msg) (records : Records)
    (forwarding : ForwardingConfig) (r : Msg) :
    (handleDNSRequest valueOk exchange records forwarding r).1.rcode = 0
    ∧ (handleDNSRequest valueOk exchange records forwarding r).1.response = true
    ∧ (handleDNSRequest valueOk exchange records forwarding r).1.answer =
        (r.question.map (questionAnswers valueOk exchange records forwarding r)).flatten
    ∧ (∀ q record err, storeLookup records q.name = some record →
        synthesize valueOk q.name record = Except.error err →
        questionAnswers valueOk exchange records forwarding r q = [])
    ∧ (∀ q, storeLookup records q.name = none →
        requestFromUpsreamServers exchange r forwarding.servers =
          Except.error ForwardingError.allUpstreamsFailed →
        questionAnswers valueOk exchange records forwarding r q = []) := by
  refine ⟨?_, ?_, ?_, ?_, ?_⟩
  · rw [handleDNSRequest_eq]
  · rw [handleDNSRequest_eq]
  · rw [handleDNSRequest_eq]
    exact rfl
  · intro q record err hfound hsyn
    simp only [questionAnswers,
      processQuestion_hit valueOk exchange records forwarding r q record hfound, hsyn]
  · intro q hmiss hfail
    simp only [questionAnswers,
      processQuestion_miss valueOk exchange records forwarding r q hmiss, hfail]
    cases forwarding.enabled <;> simp

/-- Witness for C4: a store hit with the unsupported type NAPTR
contributes no answer while forwarding is enabled. -/
theorem errors_nonfatal_witness :
    questionAnswers (fun _ _ => true) (fun _ _ => none)
      [("bad2.test", { type := "NAPTR", value := "x" })]
      { enabled := true, servers := ["s1"] } {} { name := "bad2.test." } = [] :=
  (errors_nonfatal (fun _ _ => true) (fun _ _ => none)
    [("bad2.test", { type := "NAPTR", value := "x" })]
    { enabled := true, servers := ["s1"] } {}).2.2.2.1
    { name := "bad2.test." } { type := "NAPTR", value := "x" }
    SynthesisError.unsupportedRecordType (by decide) rfl

/-- C5: a question whose domain is absent from the Record Store with
forwarding disabled contributes zero answer records, and the reply is
still well-formed: same transaction identifier as the query and marked as
a response. -/
theorem miss_forwarding_disabled (valueOk : String → String → Bool)
    (exchange : Msg → String → Option Msg) (records : Records)
    (forwarding : ForwardingConfig) (r : Msg) (q : Question)
    (hmiss : storeLookup records q.name = none)
    (hdis : forwarding.enabled = false) :
    questionAnswers valueOk exchange records forwarding r q = []
    ∧ (handleDNSRequest valueOk exchange records forwarding r).1.id = r.id
    ∧ (handleDNSRequest valueOk exchange records forwarding r).1.response = true := by
  refine ⟨?_, ?_, ?_⟩
  · simp only [questionAnswers,
      processQuestion_miss valueOk exchange records forwarding r q hmiss, hdis]
    simp
  · rw [handleDNSRequest_eq]
  · rw [handleDNSRequest_eq]

/-- Witness for C5 on the specification scenario: a question for
unknown.test.com. with forwarding disabled yields no answers and the
reply keeps the transaction identifier 42 of the query. -/
theorem miss_forwarding_disabled_witness :
    questionAnswers (fun _ _ => true) (fun _ _ => none)
      [("test.com", { type := "A", value := "127.0.0.1", ttl := 600 })]
      { enabled := false, servers := [] }
      { id := 42, question := [{ name := "unknown.test.com." }] }
      { name := "unknown.test.com." } = []
    ∧ (handleDNSRequest (fun _ _ => true) (fun _ _ => none)
        [("test.com", { type := "A", value := "127.0.0.1", ttl := 600 })]
        { enabled := false, servers := [] }
        { id := 42, question := [{ name := "unknown.test.com." }] }).1.id = 42 :=
  ⟨(miss_forwarding_disabled (fun _ _ => true) (fun _ _ => none)
      [("test.com", { type := "A", value := "127.0.0.1", ttl := 600 })]
      { enabled := false, servers := [] }
      { id := 42, question := [{ name := "unknown.test.com." }] }
      { name := "unknown.test.com." } (by decide) rfl).1,
   (miss_forwarding_disabled (fun _ _ => true) (fun _ _ => none)
      [("test.com", { type := "A", value := "127.0.0.1", ttl := 600 })]
      { enabled := false, servers := [] }
      { id := 42, question := [{ name := "unknown.test.com." }] }
      { name := "unknown.test.com." } (by decide) rfl).2.1⟩

/-- C8: the questions of a query are handled one by one, each through the
same per-question function of the question alone, and the answer section
of the reply (as well as the ghost list of forwarded queries) is the
concatenation of the per-question results in question order, for every mix
of hit, miss and forwarded outcomes. -/
theorem answers_preserve_question_order (valueOk : String → String → Bool)
    (exchange : Msg → String → Option Msg) (records : Records)
    (forwarding : ForwardingConfig) (r : Msg) :
    (handleDNSRequest valueOk exchange records forwarding r).1.answer =
      (r.question.map (questionAnswers valueOk exchange records forwarding r)).flatten
    ∧ (handleDNSRequest valueOk exchange records forwarding r).2 =
      (r.question.map
        (fun q => (processQuestion valueOk exchange records forwarding r q).2)).flatten := by
  rw [handleDNSRequest_eq]
  exact ⟨rfl, rfl⟩

/-- C9: the handler reads the first entry of the question section of the
query unconditionally when emitting the log line after the reply has been
written, so the complete handler run is well-defined exactly when the
query has at least one question; with an empty question section the index
access is out of bounds. -/
theorem logline_requires_question (valueOk : String → String → Bool)
    (exchange : Msg → String → Option Msg) (records : Records)
    (forwarding : ForwardingConfig) (r : Msg) :
    ((handlerRun valueOk exchange records forwarding r).isSome ↔ r.question ≠ [])
    ∧ (∀ q qs, r.question = q :: qs →
        handlerRun valueOk exchange records forwarding r =
          some ((handleDNSRequest valueOk exchange records forwarding r).1, q.name)) := by
  unfold handlerRun
  cases h : r.question with
  | nil => simp [h]
  | cons q qs => simp [h]

/-- Witness for C9: a one-question query runs to completion and logs the
name of its first question. -/
theorem logline_requires_question_witness :
    handlerRun (fun _ _ => true) (fun _ _ => none) []
      { enabled := false, servers := [] } { question := [{ name := "a." }] } =
      some ((handleDNSRequest (fun _ _ => true) (fun _ _ => none) []
        { enabled := false, servers := [] } { question := [{ name := "a." }] }).1,
        "a.") :=
  (logline_requires_question (fun _ _ => true) (fun _ _ => none) []
    { enabled := false, servers := [] } { question := [{ name := "a." }] }).2
    { name := "a." } [] rfl

theorem flatten_if_replicate (p : Question → Bool) (x : Msg) :
    ∀ l : List Question,
      (l.map (fun q => if p q then [x] else [])).flatten =
        List.replicate (l.countP p) x
  | [] => by simp
  | q :: rest => by
    by_cases h : p q = true <;>
      simp [h, List.countP_cons, flatten_if_replicate p x rest,
        List.replicate_succ]

/-- C10: with forwarding enabled, every question missing from the Record
Store triggers one forwarding pass whose forwarded message is the full
original query (all questions included), so a query with n missing
questions contacts the upstream n times; each such question contributes
the entire answer section of the upstream response (or nothing when all
upstreams fail), so the same upstream answer records can recur once per
missing question. -/
theorem miss_forwards_full_query (valueOk : String → String → Bool)
    (exchange : Msg → String → Option Msg) (records : Records)
    (forwarding : ForwardingConfig) (r : Msg)
    (hen : forwarding.enabled = true) :
    (handleDNSRequest valueOk exchange records forwarding r).2 =
      List.replicate
        (r.question.countP (fun q => (storeLookup records q.name).isNone)) r
    ∧ (∀ q, storeLookup records q.name = none →
        questionAnswers valueOk exchange records forwarding r q =
          match requestFromUpsreamServers exchange r forwarding.servers with
          | Except.ok upstreamResponse => upstreamResponse.answer
          | Except.error _ => []) := by
  constructor
  · rw [handleDNSRequest_eq]
    have hpt : (fun q => (processQuestion valueOk exchange records forwarding r q).2) =
        (fun q => if (storeLookup records q.name).isNone then [r] else []) := by
      funext q
      cases hl : storeLookup records q.name with
      | some record =>
        rw [processQuestion_hit valueOk exchange records forwarding r q record hl]
        cases synthesize valueOk q.name record <;> simp
      | none =>
        rw [processQuestion_miss valueOk exchange records forwarding r q hl, hen]
        cases requestFromUpsreamServers exchange r forwarding.servers <;> simp
    rw [hpt]
    exact flatten_if_replicate _ r r.question
  · intro q hmiss
    simp only [questionAnswers,
      processQuestion_miss valueOk exchange records forwarding r q hmiss, hen,
      if_true]
    cases requestFromUpsreamServers exchange r forwarding.servers <;> simp

/-- Witness for C10: a two-question query with both names missing from an
empty store forwards the full original query twice. -/
theorem miss_forwards_full_query_witness :
    (handleDNSRequest (fun _ _ => true)
      (fun _ _ => some { answer := [{ name := "u.", rtype := "A", ttl := 1,
                                      rdata := RData.simple "9.9.9.9" }] })
      [] { enabled := true, servers := ["s1"] }
      { question := [{ name := "a." }, { name := "b." }] }).2 =
      List.replicate 2 { question := [{ name := "a." }, { name := "b." }] } :=
  ((miss_forwards_full_query (fun _ _ => true)
      (fun _ _ => some { answer := [{ name := "u.", rtype := "A", ttl := 1,
                                      rdata := RData.simple "9.9.9.9" }] })
      [] { enabled := true, servers := ["s1"] }
      { question := [{ name := "a." }, { name := "b." }] } rfl).1).trans
    (by decide)

end EasyDNS
